import Mathlib

/-!
Verification of the query translation and reconciliation layer of the
firebase-tools CLI: a shallow embedding of `queryRealtimeDatabase`
(RTDB query path), `queryCollectionData` (Firestore collection query
path) and the array-field branch of `queryDocument` (Firestore
document-field query path), together with models of the JavaScript
primitives they rely on (`Number`, `parseInt`, `Object.entries`,
`Object.keys`, truthiness, `===`, relational comparison) and of the
external RTDB backend's native query semantics.
-/

/-- A JSON-like runtime value, modelling the JavaScript values the query
layer manipulates.  Numbers are modelled as rationals (the concrete
programs only produce decimal literals; floating-point rounding is out
of scope). -/
inductive Value where
  | vNull : Value
  | vBool : Bool → Value
  | vNum : ℚ → Value
  | vStr : String → Value
  | vObj : List (String × Value) → Value
  | vArr : List Value → Value

open Value

/-- JavaScript property lookup on an object literal: first binding wins
(our object values are built once, with distinct keys). -/
def objGet (l : List (String × Value)) (k : String) : Option Value :=
  match l.find? (fun p => p.1 = k) with
  | none => none
  | some p => some p.2

/-- Split a character list at every occurrence of `sep` (the separator
itself is dropped; empty segments are kept, and the empty input gives
one empty segment, as JavaScript `String.prototype.split` does). -/
def splitCharAux (sep : Char) : List Char → List Char → List String
  | [], acc => [String.mk acc.reverse]
  | c :: cs, acc =>
    if c = sep then String.mk acc.reverse :: splitCharAux sep cs []
    else splitCharAux sep cs (c :: acc)

/-- JavaScript `s.split(sep)` for a single-character separator. -/
def jsSplit (sep : Char) (s : String) : List String :=
  splitCharAux sep s.data []

/-- JavaScript `s.trim()`: strip leading and trailing whitespace. -/
def jsTrim (s : String) : String :=
  String.mk (((s.data.dropWhile Char.isWhitespace).reverse.dropWhile Char.isWhitespace).reverse)

/-- ASCII lower-casing of one character. -/
def lowerChar (c : Char) : Char :=
  if 'A' ≤ c ∧ c ≤ 'Z' then Char.ofNat (c.toNat + 32) else c

/-- JavaScript `s.toLowerCase()` (ASCII range; the direction tokens the
programs compare are ASCII). -/
def jsToLower (s : String) : String :=
  String.mk (s.data.map lowerChar)

/-- Lexicographic strict comparison of character lists by code point. -/
def strLtChars : List Char → List Char → Bool
  | [], [] => false
  | [], _ :: _ => true
  | _ :: _, [] => false
  | a :: as, b :: bs =>
    if a.toNat < b.toNat then true
    else if b.toNat < a.toNat then false
    else strLtChars as bs

/-- JavaScript string comparison `a < b` (code-unit lexicographic). -/
def jsStrLt (a b : String) : Bool := strLtChars a.data b.data

/-- JavaScript string comparison `a <= b`. -/
def jsStrLe (a b : String) : Bool := !(strLtChars b.data a.data)

/-- JavaScript truthiness test on our value domain (`null`, `false`,
`0` and the empty string are falsy; every object and array is truthy). -/
def jsFalsy : Value → Bool
  | vNull => true
  | vBool b => !b
  | vNum q => decide (q = 0)
  | vStr s => s = ""
  | vObj _ => false
  | vArr _ => false

/-- `Object.entries`: an object gives its own entries, an array its
indexed elements, a string its indexed characters, every other
primitive the empty list. -/
def jsEntries : Value → List (String × Value)
  | vObj l => l
  | vArr l => l.enum.map (fun p => (toString p.1, p.2))
  | vStr s => s.data.enum.map (fun p => (toString p.1, vStr (String.singleton p.2)))
  | _ => []

/-- `Object.keys(x).length`: entry count for objects, element count for
arrays, character count for strings, `0` for the other primitives. -/
def jsKeysLen : Value → Nat
  | vObj l => l.length
  | vArr l => l.length
  | vStr s => s.length
  | _ => 0

/-- Digit run to natural number. -/
def digitsVal (cs : List Char) : Nat :=
  cs.foldl (fun acc c => acc * 10 + (c.toNat - 48)) 0

/-- Unsigned decimal literal: digit run with at most one decimal point
and at least one digit. -/
def parseDecimalCore (t : List Char) : Option ℚ :=
  match splitCharAux '.' t [] with
  | [a] =>
    if a.data ≠ [] ∧ a.data.all Char.isDigit then some ((digitsVal a.data : ℚ))
    else none
  | [a, b] =>
    if (a.data ≠ [] ∨ b.data ≠ []) ∧ a.data.all Char.isDigit ∧ b.data.all Char.isDigit then
      some (mkRat (digitsVal (a.data ++ b.data)) (10 ^ b.data.length))
    else none
  | _ => none

/-- Model of JavaScript `Number(string)` restricted to finite decimal
literals: surrounding whitespace is ignored, the empty (or blank)
string converts to `0`, an optionally signed decimal literal converts
to its value, anything else is NaN (`none`).  Hexadecimal, exponent and
`Infinity` forms are not exercised by the programs under verification
and are mapped to NaN. -/
def jsToNumber (s : String) : Option ℚ :=
  match (jsTrim s).data with
  | [] => some 0
  | '-' :: cs => (parseDecimalCore cs).map (fun q => -q)
  | '+' :: cs => parseDecimalCore cs
  | cs => parseDecimalCore cs

/-- Model of JavaScript `parseInt(string)`: after trimming, an optional
sign followed by the maximal leading digit run; NaN (`none`) when no
leading digit exists. -/
def jsParseInt (s : String) : Option Int :=
  let step : Bool → List Char → Option Int := fun neg cs =>
    let ds := cs.takeWhile Char.isDigit
    if ds.isEmpty then none
    else some (if neg then -(digitsVal ds : Int) else (digitsVal ds : Int))
  match (jsTrim s).data with
  | '-' :: cs => step true cs
  | '+' :: cs => step false cs
  | cs => step false cs

/-- `ToNumber` on a value (used by relational comparison): `null` and
the empty array convert to `0`, booleans to `0`/`1`, strings through
`Number()`; plain objects (and arrays of two or more elements, whose
string conversion contains a comma) are NaN. -/
def jsToNumberV : Value → Option ℚ
  | vNull => some 0
  | vBool b => some (if b then 1 else 0)
  | vNum q => some q
  | vStr s => jsToNumber s
  | vArr [] => some 0
  | vArr [vNum q] => some q
  | vArr [vStr s] => jsToNumber s
  | vArr [vNull] => some 0
  | vArr _ => none
  | vObj _ => none

/-- JavaScript abstract relational comparison `a < b`: lexicographic
when both operands are strings, otherwise numeric after `ToNumber`,
false when either side is NaN. -/
def jsLtB : Value → Value → Bool
  | vStr a, vStr b => jsStrLt a b
  | a, b =>
    match jsToNumberV a, jsToNumberV b with
    | some x, some y => decide (x < y)
    | _, _ => false

/-- `a > b` is the relational comparison `b < a`. -/
def jsGtB (a b : Value) : Bool := jsLtB b a

/-- `a >= b` is `¬ (a < b)` unless a NaN is involved, in which case it
is false. -/
def jsGeB : Value → Value → Bool
  | vStr a, vStr b => jsStrLe b a
  | a, b =>
    match jsToNumberV a, jsToNumberV b with
    | some x, some y => decide (y ≤ x)
    | _, _ => false

/-- `a <= b` is `b >= a`. -/
def jsLeB (a b : Value) : Bool := jsGeB b a

/-- Relational `<` where either side may be `undefined` (`none`):
comparison against `undefined` is always false. -/
def jsLtOO : Option Value → Option Value → Bool
  | some a, some b => jsLtB a b
  | _, _ => false

/-- Relational `>` on possibly-`undefined` operands. -/
def jsGtOO (a b : Option Value) : Bool := jsLtOO b a

/-- `>=` on possibly-`undefined` operands. -/
def jsGeOO : Option Value → Option Value → Bool
  | some a, some b => jsGeB a b
  | _, _ => false

/-- `<=` on possibly-`undefined` operands. -/
def jsLeOO (a b : Option Value) : Bool := jsGeOO b a

/-- JavaScript strict equality `===` on our value domain.  Objects and
arrays compare by reference; the compared operands here are always a
freshly coerced primitive against a stored value, so two structured
values are never identical. -/
def jsEqB : Value → Value → Bool
  | vNull, vNull => true
  | vBool a, vBool b => a = b
  | vNum a, vNum b => decide (a = b)
  | vStr a, vStr b => a = b
  | _, _ => false

/-- `===` where the left side may be `undefined`: `undefined` is
strictly equal to no value of our domain. -/
def jsEqOO : Option Value → Value → Bool
  | none, _ => false
  | some a, b => jsEqB a b

/-- Property read `item[field]` with a plain string key, as used by the
RTDB post-filter and post-sort: object property, numeric index into an
array, `undefined` otherwise. -/
def jsIndex : Value → String → Option Value
  | vObj l, k => objGet l k
  | vArr l, k =>
    if k ≠ "" ∧ k.data.all Char.isDigit then l.get? (digitsVal k.data) else none
  | _, _ => none

/-- One step of the dot-path walk of `getNestedFieldValue` (source
lines 20-40): bail out on `undefined`/`null`, index arrays by numeric
keys, read object properties, return `undefined` on primitives. -/
def nestedStep (cur : Option Value) (key : String) : Option Value :=
  match cur with
  | none => none
  | some vNull => none
  | some (vArr l) =>
    match jsToNumber key with
    | some q => if q.den = 1 ∧ 0 ≤ q.num then l.get? q.num.toNat else none
    | none => none
  | some (vObj l) => objGet l key
  | some _ => none

/-- `getNestedFieldValue(obj, fieldPath)`: resolve a dot-separated path
inside a value, `undefined` (`none`) when any hop fails. -/
def getNestedFieldValue (obj : Value) (fieldPath : String) : Option Value :=
  (jsSplit '.' fieldPath).foldl nestedStep (some obj)

/-- Value coercion of the RTDB query path (source lines 54-58 and
108-112): literal `true`/`false`/`null`, then any string `Number()`
accepts (no trimming, no length guard), otherwise the string itself. -/
def parseRTDBValue (value : String) : Value :=
  if value = "true" then vBool true
  else if value = "false" then vBool false
  else if value = "null" then vNull
  else
    match jsToNumber value with
    | some q => vNum q
    | none => vStr value

/-- Value coercion of the Firestore collection query path
(firestore-query.ts lines 602-607): the value is trimmed first; no
length guard on the numeric branch. -/
def parseCollectionValue (value : String) : Value :=
  let p := jsTrim value
  if p = "true" then vBool true
  else if p = "false" then vBool false
  else if p = "null" then vNull
  else
    match jsToNumber p with
    | some q => vNum q
    | none => vStr p

/-- Value coercion of the Firestore document-field query path
(firestore-query.ts lines 220-229): trimmed, and the numeric branch
additionally requires the trimmed string to be at most 15 characters
long to avoid precision loss. -/
def parseDocFieldValue (value : String) : Value :=
  let p := jsTrim value
  if p = "true" then vBool true
  else if p = "false" then vBool false
  else if p = "null" then vNull
  else
    match jsToNumber p with
    | some q => if p.length ≤ 15 then vNum q else vStr p
    | none => vStr p

/-- The error conditions raised by the query paths before any result is
assembled: the explicit validation messages thrown by the source, the
TypeErrors the collection path raises when destructured clause segments
are `undefined`, and the Firebase SDK's client-side rejection of a
second `orderByChild` call on the same query (the error message is
"You can't combine multiple orderBy calls"). -/
inductive QueryError where
  | orderFieldRequired
  | invalidDirection
  | malformedWhere
  | unsupportedOperator
  | invalidLimit
  | typeErrorTrimUndefined
  | typeErrorSplitNotFunction
  | errMultipleOrderBy
  deriving DecidableEq

/-- The native range constraint attached to an RTDB query. -/
inductive Bound where
  | equalTo : Value → Bound
  | startAt : Value → Bound
  | endAt : Value → Bound

/-- The native RTDB query handle accumulated before the backend call:
the sequence of `orderByChild` calls, the inclusive bound, and the
native `limitToFirst`. -/
structure RTDBQuery where
  orderByCalls : List String := []
  bound : Option Bound := none
  limitToFirst : Option Nat := none

/-- The textual query options the CLI hands to each query path. -/
structure QueryOptions where
  whereS : Option String := none
  limitS : Option String := none
  orderByS : Option String := none

/-- Falsiness of a destructured clause segment: `undefined` (the
segment is absent) and the empty string are falsy. -/
def segFalsy : Option String → Bool
  | none => true
  | some s => s = ""

/-- The `orderBy` handling of the RTDB path (source lines 27-42): the
block is guarded by `if (options.orderBy)`, so a falsy (empty) orderBy
string is skipped silently; otherwise split on commas, require a field,
default the direction to `asc`, reject directions other than
`asc`/`desc`, and push `orderByChild(field)` native for both
directions. -/
def applyOrderBy (o : Option String) (q : RTDBQuery) : Except QueryError RTDBQuery :=
  match o with
  | none => .ok q
  | some s =>
    if s = "" then .ok q
    else
    let parts := jsSplit ',' s
    if segFalsy (parts.get? 0) then .error .orderFieldRequired
    else
      let field := (parts.get? 0).getD ""
      let dir := match parts.get? 1 with
                 | none => "asc"
                 | some d => if jsToLower d = "" then "asc" else jsToLower d
      if dir = "asc" ∨ dir = "desc" then
        .ok { q with orderByCalls := q.orderByCalls ++ [field] }
      else .error .invalidDirection

/-- `query.orderByChild(field)` followed by attaching a bound, as each
supported operator branch of the where handler does.  The Firebase SDK
rejects a second `orderByChild` call on the same query with the error
"You can't combine multiple orderBy calls", so the call succeeds only
when no `orderByChild` was recorded yet. -/
def addBound (field : String) (b : Bound) (q : RTDBQuery) : Except QueryError RTDBQuery :=
  if q.orderByCalls.isEmpty then
    .ok { q with orderByCalls := q.orderByCalls ++ [field], bound := some b }
  else .error .errMultipleOrderBy

/-- The `where` handling of the RTDB path (source lines 44-85): the
block is guarded by `if (options.where)`, so a falsy (empty) where
string is skipped silently; otherwise split on commas, fail when field
or operator is falsy or the value segment is absent, coerce the value,
then translate the operator: equality becomes `equalTo`, `>=`/`>`
become the inclusive `startAt`, `<=`/`<` become the inclusive `endAt`;
anything else is unsupported.  Every supported branch performs its own
`orderByChild` call, which the SDK rejects when the orderBy clause
already ordered the query. -/
def applyWhere (o : Option String) (q : RTDBQuery) : Except QueryError RTDBQuery :=
  match o with
  | none => .ok q
  | some s =>
    if s = "" then .ok q
    else
    let parts := jsSplit ',' s
    if segFalsy (parts.get? 0) || segFalsy (parts.get? 1) || (parts.get? 2).isNone then
      .error .malformedWhere
    else
      let field := (parts.get? 0).getD ""
      let op := (parts.get? 1).getD ""
      let pv := parseRTDBValue ((parts.get? 2).getD "")
      if op = "==" ∨ op = "=" then addBound field (.equalTo pv) q
      else if op = ">=" then addBound field (.startAt pv) q
      else if op = "<=" then addBound field (.endAt pv) q
      else if op = ">" then addBound field (.startAt pv) q
      else if op = "<" then addBound field (.endAt pv) q
      else .error .unsupportedOperator

/-- The `limit` handling of the RTDB path (source lines 87-94): a falsy
(empty) limit option is skipped silently; otherwise `parseInt` must
yield a positive number, which is pushed native as `limitToFirst`. -/
def applyLimit (o : Option String) (q : RTDBQuery) : Except QueryError RTDBQuery :=
  match o with
  | none => .ok q
  | some s =>
    if s = "" then .ok q
    else
      match jsParseInt s with
      | none => .error .invalidLimit
      | some i => if i ≤ 0 then .error .invalidLimit
                  else .ok { q with limitToFirst := some i.toNat }

/-- Native query construction of `queryRealtimeDatabase` (source lines
24-94), in source order: ordering, filter, limit. -/
def buildRTDBQuery (o : QueryOptions) : Except QueryError RTDBQuery :=
  match applyOrderBy o.orderByS {} with
  | .error e => .error e
  | .ok q1 =>
    match applyWhere o.whereS q1 with
    | .error e => .error e
    | .ok q2 => applyLimit o.limitS q2

/-- Rank of a child value in the RTDB server-side ordering: missing and
`null` first, then `false`, `true`, numbers, strings, structured
values last.  Models the external tree-store backend's ordering
contract (spec section 6). -/
def rtdbRank : Option Value → Nat
  | none => 0
  | some vNull => 0
  | some (vBool false) => 1
  | some (vBool true) => 2
  | some (vNum _) => 3
  | some (vStr _) => 4
  | some (vObj _) => 5
  | some (vArr _) => 5

/-- `≤` in the RTDB server-side value ordering: by rank, then by value
for numbers and strings; structured values tie (the backend breaks such
ties by key). -/
def rtdbLeV (a b : Option Value) : Bool :=
  if rtdbRank a < rtdbRank b then true
  else if rtdbRank b < rtdbRank a then false
  else
    match a, b with
    | some (vNum x), some (vNum y) => decide (x ≤ y)
    | some (vStr x), some (vStr y) => jsStrLe x y
    | _, _ => true

/-- Equality in the RTDB server-side value ordering. -/
def rtdbEqV (a b : Option Value) : Bool := rtdbLeV a b && rtdbLeV b a

/-- The indexed child value of a record: the `f` property when the
record is an object, missing otherwise. -/
def childVal (f : String) (p : String × Value) : Option Value :=
  match p.2 with
  | vObj l => objGet l f
  | _ => none

/-- Sibling order used by the modelled backend for `orderByChild f`: by
the indexed child's priority, ties broken by key. -/
def rtdbNodeLe (f : String) (x y : String × Value) : Bool :=
  if rtdbEqV (childVal f x) (childVal f y) then jsStrLe x.1 y.1
  else rtdbLeV (childVal f x) (childVal f y)

/-- Modelled execution of the native query by the external tree-store
backend (spec section 6): `orderByChild` sorts the children by the
indexed value, `equalTo`/`startAt`/`endAt` keep the children whose
indexed value matches the inclusive bound, `limitToFirst n` keeps the
first `n` survivors in that order; an empty result set is delivered as
`null` by `snapshot.val()`, and a constraint-free query returns the
value stored at the path unchanged.  The builder rejects a second
`orderByChild` call, so a query that reaches the backend carries at
most one recorded call, which serves as the index. -/
def execRTDB (q : RTDBQuery) (db : Value) : Value :=
  if q.orderByCalls.isEmpty && q.bound.isNone && q.limitToFirst.isNone then db
  else
    match db with
    | vObj l =>
      let f := (q.orderByCalls.head?).getD ""
      let sorted := List.insertionSort (fun x y => rtdbNodeLe f x y = true) l
      let bounded := match q.bound with
        | none => sorted
        | some (.equalTo v) => sorted.filter (fun p => rtdbEqV (childVal f p) (some v))
        | some (.startAt v) => sorted.filter (fun p => rtdbLeV (some v) (childVal f p))
        | some (.endAt v) => sorted.filter (fun p => rtdbLeV (childVal f p) (some v))
      let limited := match q.limitToFirst with
        | none => bounded
        | some n => bounded.take n
      if limited.isEmpty then vNull else vObj limited
    | _ => vNull

/-- Comparator order of the RTDB descending post-sort (source lines
134-140): the comparator returns a positive number exactly when the
first record's field value is relationally smaller, so the sort keeps
`x` before `y` unless `x[f] < y[f]`; records whose field is missing
compare equal to everything. -/
def rtdbDescLe (f : String) (x y : String × Value) : Bool :=
  !(jsLtOO (jsIndex x.2 f) (jsIndex y.2 f))

/-- Post-processing of the raw snapshot (source lines 105-144): a
client-side strict-inequality filter re-parsed from the where clause
(only for `>` and `<`), then a client-side stable sort for descending
order only; ascending order is left to the backend's delivery order.
Both blocks repeat the source's `if (options.where)` and
`if (options.orderBy)` truthiness guards, so empty clause strings are
skipped silently. -/
def postProcessRTDB (o : QueryOptions) (results : Value) : Value :=
  let afterWhere := match o.whereS with
    | none => results
    | some s =>
      if s = "" then results
      else
      let parts := jsSplit ',' s
      let field := (parts.get? 0).getD ""
      let op := (parts.get? 1).getD ""
      let pv := parseRTDBValue ((parts.get? 2).getD "")
      if op = ">" || op = "<" then
        vObj ((jsEntries results).filter (fun p =>
          if op = ">" then jsGtOO (jsIndex p.2 field) (some pv)
          else jsLtOO (jsIndex p.2 field) (some pv)))
      else results
  match o.orderByS with
  | none => afterWhere
  | some s =>
    if s = "" then afterWhere
    else
    let parts := jsSplit ',' s
    let field := (parts.get? 0).getD ""
    let dir := match parts.get? 1 with
               | none => "asc"
               | some d => if jsToLower d = "" then "asc" else jsToLower d
    if dir = "desc" then
      vObj (List.insertionSort (fun x y => rtdbDescLe field x y = true) (jsEntries afterWhere))
    else afterWhere

/-- The slice of the output envelope the claims are about (source lines
150-163): the result count and the processed payload. -/
structure RTDBEnvelope where
  totalResults : Nat
  results : Value

/-- The RTDB query pipeline of `queryRealtimeDatabase`, with the value
stored at the queried path as input: build the native query, let the
modelled backend execute it, bail out with no envelope when the
snapshot is falsy, post-process, and assemble the envelope with
`totalResults = Object.keys(results).length`. -/
def queryRealtimeDatabase (db : Value) (o : QueryOptions) :
    Except QueryError (Option RTDBEnvelope) :=
  match buildRTDBQuery o with
  | .error e => .error e
  | .ok q =>
    let raw := execRTDB q db
    if jsFalsy raw then .ok none
    else
      let processed := postProcessRTDB o raw
      .ok (some { totalResults := jsKeysLen processed, results := processed })

/-- Entries of the delivered payload (empty when the run failed or
produced no envelope). -/
def finalEntries (x : Except QueryError (Option RTDBEnvelope)) : List (String × Value) :=
  match x with
  | .ok (some env) => jsEntries env.results
  | _ => []

/-- Keys of the delivered payload, in delivery order. -/
def finalKeys (x : Except QueryError (Option RTDBEnvelope)) : List String :=
  (finalEntries x).map Prod.fst

/-- The delivered `totalResults` count, when an envelope was produced. -/
def totalCountOf (x : Except QueryError (Option RTDBEnvelope)) : Option Nat :=
  match x with
  | .ok (some env) => some env.totalResults
  | _ => none

/-- The recorded `orderByChild` call sequence of a built query (empty
on failure). -/
def orderByCallsOf (x : Except QueryError RTDBQuery) : List String :=
  match x with
  | .ok q => q.orderByCalls
  | .error _ => []

/-- The native Firestore collection query handle: the where triple, the
(unvalidated) parsed limit, and the order pair, exactly as handed to
the SDK by `queryCollectionData` (firestore-query.ts lines 597-628). -/
structure FSCollQuery where
  whereC : Option (String × String × Value) := none
  limitC : Option (Option Int) := none
  orderC : Option (String × String) := none

/-- Native query construction of the Firestore collection path
(firestore-query.ts lines 597-628): the where clause is split and its
segments are used unchecked (`operator.trim()` and `value.trim()` raise
a TypeError when the segment is `undefined`); the limit, when truthy,
is `parseInt`ed and passed to the backend without validation; the order
direction defaults to `asc` when falsy.  Each block is guarded by the
source's truthiness check, so empty where/limit/orderBy strings are
skipped silently. -/
def buildCollectionQuery (o : QueryOptions) : Except QueryError FSCollQuery :=
  match ((match o.whereS with
         | none => .ok ({} : FSCollQuery)
         | some s =>
           if s = "" then .ok ({} : FSCollQuery)
           else
           let parts := jsSplit ',' s
           match parts.get? 1 with
           | none => .error .typeErrorTrimUndefined
           | some op =>
             match parts.get? 2 with
             | none => .error .typeErrorTrimUndefined
             | some v =>
               .ok { whereC :=
                       some (jsTrim ((parts.get? 0).getD ""), jsTrim op, parseCollectionValue v) }) :
         Except QueryError FSCollQuery) with
  | .error e => .error e
  | .ok q1 =>
    let q2 := match o.limitS with
      | none => q1
      | some s => if s = "" then q1 else { q1 with limitC := some (jsParseInt s) }
    match o.orderByS with
    | none => .ok q2
    | some s =>
      if s = "" then .ok q2
      else
      let parts := jsSplit ',' s
      let field := jsTrim ((parts.get? 0).getD "")
      let dword := match parts.get? 1 with
                   | none => "asc"
                   | some d => if jsTrim d = "" then "asc" else jsTrim d
      .ok { q2 with orderC := some (field, dword) }

/-- The limit the collection path hands to the backend (`none` when the
build failed; `some none` when no limit was given; `some (some pi)`
with `pi` the raw `parseInt` result — itself `none` for NaN). -/
def collLimitOf (x : Except QueryError FSCollQuery) : Option (Option (Option Int)) :=
  match x with
  | .ok q => some q.limitC
  | .error _ => none

/-- `typeof x === 'object' && x !== null`: objects and arrays. -/
def isObjLike : Value → Bool
  | vObj _ => true
  | vArr _ => true
  | _ => false

/-- A field value counts as unresolvable when it is `undefined` or
`null` (the document-field sort treats both alike). -/
def unresolvedOpt : Option Value → Bool
  | none => true
  | some vNull => true
  | some _ => false

/-- Comparator of the document-field post-sort (firestore-query.ts
lines 290-319): non-objects tie with everything; records whose field is
`undefined`/`null` sort after records with a resolvable field in both
directions; otherwise the resolved values are compared relationally in
the requested direction. -/
def fsCompare (dir f : String) (a b : Value) : Int :=
  if !(isObjLike a) || !(isObjLike b) then 0
  else
    let av := getNestedFieldValue a f
    let bv := getNestedFieldValue b f
    if unresolvedOpt av then (if unresolvedOpt bv then 0 else 1)
    else if unresolvedOpt bv then -1
    else if dir = "desc" then
      (if jsGtOO av bv then -1 else if jsLtOO av bv then 1 else 0)
    else
      (if jsLtOO av bv then -1 else if jsGtOO av bv then 1 else 0)

/-- `x` stays before `y` in a stable comparator sort exactly when the
comparator does not order `x` strictly after `y`. -/
def fsLe (dir f : String) (a b : Value) : Bool := decide (fsCompare dir f a b ≤ 0)

/-- The document-field post-sort: JavaScript `Array.prototype.sort` is
required to be stable, modelled as a stable insertion sort over the
comparator order. -/
def fsSortArray (dir f : String) (l : List Value) : List Value :=
  List.insertionSort (fun a b => fsLe dir f a b = true) l

/-- The filter predicate of the document-field where clause
(firestore-query.ts lines 231-267): non-objects never match; otherwise
the resolved field value is compared against the coerced clause value
with the requested operator. -/
def fsFilterPred (field op : String) (pv : Value) (item : Value) : Bool :=
  if !(isObjLike item) then false
  else
    let iv := getNestedFieldValue item field
    if op = "==" || op = "=" then jsEqOO iv pv
    else if op = "!=" then !(jsEqOO iv pv)
    else if op = ">" then jsGtOO iv (some pv)
    else if op = ">=" then jsGeOO iv (some pv)
    else if op = "<" then jsLtOO iv (some pv)
    else if op = "<=" then jsLeOO iv (some pv)
    else if op = "array-contains" then
      match iv with
      | some (vArr l) => l.any (fun x => jsEqB x pv)
      | _ => false
    else if op = "in" then
      match pv with
      | vStr s => ((jsSplit '|' s).map jsTrim).any (fun x => jsEqOO iv (vStr x))
      | _ => false
    else false

/-- The operators the document-field filter accepts; any other operator
makes the filter callback throw on the first element it visits. -/
def fsSupportedOps : List String :=
  ["==", "=", "!=", ">", ">=", "<", "<=", "array-contains", "in"]

/-- Whether a coerced value is a string (the `in` operator calls
`.split` on it and raises a TypeError otherwise). -/
def isStrV : Value → Bool
  | vStr _ => true
  | _ => false

/-- The document-field query pipeline over an array field
(firestore-query.ts lines 205-338): where filter (with explicit
malformed-clause validation), then stable sort, then validated limit.
Every block is guarded by the source's truthiness check, so empty
clause strings are skipped silently; operator errors are raised inside
the filter callback, so an empty array never raises them. -/
def processFieldArray (o : QueryOptions) (arr : List Value) :
    Except QueryError (List Value) :=
  match ((match o.whereS with
    | none => .ok arr
    | some s =>
      if s = "" then .ok arr
      else
      let parts := jsSplit ',' s
      if segFalsy (parts.get? 0) || segFalsy (parts.get? 1) || (parts.get? 2).isNone then
        .error .malformedWhere
      else
        let field := jsTrim ((parts.get? 0).getD "")
        let op := jsTrim ((parts.get? 1).getD "")
        let pv := parseDocFieldValue ((parts.get? 2).getD "")
        if fsSupportedOps.contains op then
          if op = "in" && !(isStrV pv) && !arr.isEmpty then .error .typeErrorSplitNotFunction
          else .ok (arr.filter (fsFilterPred field op pv))
        else if arr.isEmpty then .ok []
        else .error .unsupportedOperator) : Except QueryError (List Value)) with
  | .error e => .error e
  | .ok arr1 =>
    match ((match o.orderByS with
      | none => .ok arr1
      | some s =>
        if s = "" then .ok arr1
        else
        let parts := jsSplit ',' s
        if segFalsy (parts.get? 0) then .error .orderFieldRequired
        else
          let field := jsTrim ((parts.get? 0).getD "")
          let dir := jsToLower (match parts.get? 1 with
                      | none => "asc"
                      | some d => if jsTrim d = "" then "asc" else jsTrim d)
          if dir = "asc" ∨ dir = "desc" then .ok (fsSortArray dir field arr1)
          else .error .invalidDirection) : Except QueryError (List Value)) with
    | .error e => .error e
    | .ok arr2 =>
      match o.limitS with
      | none => .ok arr2
      | some s =>
        if s = "" then .ok arr2
        else
          match jsParseInt s with
          | none => .error .invalidLimit
          | some i => if i ≤ 0 then .error .invalidLimit else .ok (arr2.take i.toNat)

/-- C6 (counterexample): the claim says all three query paths coerce by
the same rule, guarding very long digit strings against precision loss.
At the 16-character digit string the paths disagree: the document-field
path keeps it a string (its guard is `length <= 15`), while the RTDB
and collection paths, which have no length guard, coerce it to a
number.  Hence a single shared bounded-length coercion does not exist. -/
theorem C6_counterexample :
    isStrV (parseDocFieldValue "1234567890123456") = true ∧
    isStrV (parseRTDBValue "1234567890123456") = false ∧
    isStrV (parseCollectionValue "1234567890123456") = false := by
  exact ⟨by decide, by decide, by decide⟩

/-- C6 (amended): each of the three paths coerces totally and
deterministically in the fixed order boolean-literal, null-literal,
number, string, and the four sample coercions hold on every path; but
only the document-field path guards long digit strings (at 15
characters) — the RTDB and collection paths coerce numeric strings of
any length to numbers. -/
theorem C6_coercion_amended :
    (parseRTDBValue "true" = vBool true ∧ parseCollectionValue "true" = vBool true ∧
      parseDocFieldValue "true" = vBool true) ∧
    (parseRTDBValue "42" = vNum 42 ∧ parseCollectionValue "42" = vNum 42 ∧
      parseDocFieldValue "42" = vNum 42) ∧
    (parseRTDBValue "null" = vNull ∧ parseCollectionValue "null" = vNull ∧
      parseDocFieldValue "null" = vNull) ∧
    (parseRTDBValue "hello" = vStr "hello" ∧ parseCollectionValue "hello" = vStr "hello" ∧
      parseDocFieldValue "hello" = vStr "hello") ∧
    (parseRTDBValue "1234567890123456" = vNum 1234567890123456 ∧
      parseCollectionValue "1234567890123456" = vNum 1234567890123456 ∧
      parseDocFieldValue "1234567890123456" = vStr "1234567890123456") :=
  ⟨⟨rfl, rfl, rfl⟩, ⟨rfl, rfl, rfl⟩, ⟨rfl, rfl, rfl⟩, ⟨rfl, rfl, rfl⟩, rfl, rfl, rfl⟩

/-- C5 (counterexample): for the primitive result `42` the assembled
envelope's `totalResults` is `Object.keys(42).length = 0`, not the `1`
the claim requires for a primitive result. -/
theorem C5_counterexample :
    ¬ (totalCountOf (queryRealtimeDatabase (vNum 42) {}) = some 1) := by
  decide

/-- C5 (amended): `totalCount` is `Object.keys(processedResult).length`:
the number of top-level entries for a structured result, but `0` for a
numeric primitive result that survives the falsiness check and the
character count for a string result (never the claimed `1`). -/
theorem C5_totalCount_amended :
    (∀ l : List (String × Value),
      totalCountOf (queryRealtimeDatabase (vObj l) {}) = some l.length) ∧
    (∀ q : ℚ, q ≠ 0 → totalCountOf (queryRealtimeDatabase (vNum q) {}) = some 0) ∧
    (∀ s : String, s ≠ "" →
      totalCountOf (queryRealtimeDatabase (vStr s) {}) = some s.length) := by
  refine ⟨fun l => rfl, fun q hq => ?_, fun s hs => ?_⟩
  · simp [queryRealtimeDatabase, buildRTDBQuery, applyOrderBy, applyWhere, applyLimit,
      execRTDB, jsFalsy, hq, postProcessRTDB, totalCountOf, jsKeysLen]
  · simp [queryRealtimeDatabase, buildRTDBQuery, applyOrderBy, applyWhere, applyLimit,
      execRTDB, jsFalsy, hs, postProcessRTDB, totalCountOf, jsKeysLen]

/-- C5 (witness): the amended theorem evaluated at the primitive `42`. -/
theorem C5_witness : totalCountOf (queryRealtimeDatabase (vNum 42) {}) = some 0 :=
  C5_totalCount_amended.2.1 42 (by norm_num)

/-- A clause string that splits into at least two comma segments is
non-empty (the split of the empty string is the single empty
segment). -/
theorem ne_empty_of_jsSplit2 {s a b : String} {t : List String}
    (h : jsSplit ',' s = a :: b :: t) : s ≠ "" := by
  intro e
  rw [e, show jsSplit ',' "" = [""] from rfl] at h
  exact absurd h (by simp)

/-- C8 (counterexample): the where string `"age"` has fewer than three
comma-separated segments, yet the Firestore collection path does not
fail with the malformed-clause error: it aborts with the TypeError
raised by calling `.trim()` on the `undefined` operator segment. -/
theorem C8_counterexample :
    buildCollectionQuery { whereS := some "age" } = .error .typeErrorTrimUndefined ∧
    QueryError.typeErrorTrimUndefined ≠ QueryError.malformedWhere :=
  ⟨rfl, by decide⟩

/-- C8 (amended): a non-empty where string with fewer than three
comma-separated segments aborts every query path before the backend
query is executed, but with different failures: the RTDB path and the
document-field path raise the explicit malformed-clause error (the
latter only after the document itself was fetched), while the
collection path crashes with a TypeError from `.trim()` on an
`undefined` segment instead of a malformed-clause error; the empty
where string is falsy, so every path silently skips the clause and
proceeds. -/
theorem C8_malformed_amended :
    (∀ (wS : String) (lS : Option String), wS ≠ "" → (jsSplit ',' wS).length ≤ 2 →
      buildRTDBQuery { whereS := some wS, orderByS := none, limitS := lS } =
        .error .malformedWhere) ∧
    (∀ (wS : String) (lS oS : Option String), wS ≠ "" → (jsSplit ',' wS).length ≤ 2 →
      buildCollectionQuery { whereS := some wS, orderByS := oS, limitS := lS } =
        .error .typeErrorTrimUndefined) ∧
    (∀ (wS : String) (lS oS : Option String) (arr : List Value),
      wS ≠ "" → (jsSplit ',' wS).length ≤ 2 →
      processFieldArray { whereS := some wS, orderByS := oS, limitS := lS } arr =
        .error .malformedWhere) ∧
    buildRTDBQuery { whereS := some "" } = .ok {} ∧
    buildCollectionQuery { whereS := some "" } = .ok {} ∧
    (∀ arr : List Value, processFieldArray { whereS := some "" } arr = .ok arr) := by
  refine ⟨fun wS lS hne h => ?_, fun wS lS oS hne h => ?_, fun wS lS oS arr hne h => ?_,
    rfl, rfl, fun arr => rfl⟩
  · match hp : jsSplit ',' wS with
    | [] => simp [buildRTDBQuery, applyOrderBy, applyWhere, hne, hp, segFalsy]
    | [a] => simp [buildRTDBQuery, applyOrderBy, applyWhere, hne, hp, segFalsy]
    | [a, b] => simp [buildRTDBQuery, applyOrderBy, applyWhere, hne, hp, segFalsy]
    | a :: b :: c :: t => rw [hp] at h; simp at h
  · match hp : jsSplit ',' wS with
    | [] => simp [buildCollectionQuery, hne, hp]
    | [a] => simp [buildCollectionQuery, hne, hp]
    | [a, b] => simp [buildCollectionQuery, hne, hp]
    | a :: b :: c :: t => rw [hp] at h; simp at h
  · match hp : jsSplit ',' wS with
    | [] => simp [processFieldArray, hne, hp, segFalsy]
    | [a] => simp [processFieldArray, hne, hp, segFalsy]
    | [a, b] => simp [processFieldArray, hne, hp, segFalsy]
    | a :: b :: c :: t => rw [hp] at h; simp at h

/-- C8 (witness): the amended theorem evaluated at the two-segment
where string `"age,=="` on all three paths. -/
theorem C8_witness :
    buildRTDBQuery { whereS := some "age,==", orderByS := none, limitS := none } =
      .error .malformedWhere ∧
    buildCollectionQuery { whereS := some "age,==", orderByS := none, limitS := none } =
      .error .typeErrorTrimUndefined ∧
    processFieldArray { whereS := some "age,==", orderByS := none, limitS := none } [] =
      .error .malformedWhere :=
  ⟨C8_malformed_amended.1 "age,==" none (by decide) (by decide),
   C8_malformed_amended.2.1 "age,==" none none (by decide) (by decide),
   C8_malformed_amended.2.2.1 "age,==" none none [] (by decide) (by decide)⟩

/-- C9 (counterexample): the collection path accepts the limit string
`"-5"` without any validation error and hands `parseInt("-5") = -5`
directly to the backend, contradicting the claim that every query path
rejects a non-positive limit. -/
theorem C9_counterexample :
    (buildCollectionQuery { limitS := some "-5" }).isOk = true ∧
    collLimitOf (buildCollectionQuery { limitS := some "-5" }) = some (some (some (-5))) := by
  exact ⟨by decide, by decide⟩

/-- C9 (amended): a non-empty limit string that is non-numeric or
parses to a non-positive integer is rejected with the validation error
by the RTDB path and by the document-field path, but the collection
path performs no validation at all and passes the raw `parseInt` result
(NaN or non-positive included) to the backend; an empty limit string is
falsy and is silently skipped by every path. -/
theorem C9_limit_amended :
    (∀ (s : String) (n : Int), s ≠ "" → jsParseInt s = some n → n ≤ 0 →
      buildRTDBQuery { limitS := some s } = .error .invalidLimit) ∧
    (∀ s : String, s ≠ "" → jsParseInt s = none →
      buildRTDBQuery { limitS := some s } = .error .invalidLimit) ∧
    (∀ (s : String) (n : Int) (arr : List Value), s ≠ "" → jsParseInt s = some n → n ≤ 0 →
      processFieldArray { limitS := some s } arr = .error .invalidLimit) ∧
    (∀ (s : String) (arr : List Value), s ≠ "" → jsParseInt s = none →
      processFieldArray { limitS := some s } arr = .error .invalidLimit) ∧
    (∀ s : String, s ≠ "" → buildCollectionQuery { limitS := some s } =
      .ok { whereC := none, limitC := some (jsParseInt s), orderC := none }) := by
  refine ⟨fun s n hne hp hn => ?_, fun s hne hp => ?_, fun s n arr hne hp hn => ?_,
    fun s arr hne hp => ?_, fun s hne => ?_⟩
  · simp [buildRTDBQuery, applyOrderBy, applyWhere, applyLimit, hne, hp, hn]
  · simp [buildRTDBQuery, applyOrderBy, applyWhere, applyLimit, hne, hp]
  · simp [processFieldArray, hne, hp, hn]
  · simp [processFieldArray, hne, hp]
  · simp [buildCollectionQuery, hne]

/-- C9 (witness): the amended theorem evaluated at the limit string
`"-5"` (and `"abc"` for the NaN case). -/
theorem C9_witness :
    buildRTDBQuery { limitS := some "-5" } = .error .invalidLimit ∧
    processFieldArray { limitS := some "abc" } [] = .error .invalidLimit ∧
    buildCollectionQuery { limitS := some "-5" } =
      .ok { whereC := none, limitC := some (jsParseInt "-5"), orderC := none } :=
  ⟨C9_limit_amended.1 "-5" (-5) (by decide) (by decide) (by decide),
   C9_limit_amended.2.2.2.1 "abc" [] (by decide) (by decide),
   C9_limit_amended.2.2.2.2 "-5" (by decide)⟩

/-- C10 (confirmed): a where value segment that is empty or blank
(every character converted by `Number()` to whitespace-trimmed
emptiness) is coerced to the number `0` in all three query paths,
because `Number("") = 0` and `isNaN(0)` is false, so the numeric branch
captures it before the string fallback; in particular the RTDB clause
`"age,==,"` parses successfully and filters against the number `0`. -/
theorem C10_empty_value_coercion :
    (∀ s : String, jsTrim s = "" →
      parseRTDBValue s = vNum 0 ∧ parseCollectionValue s = vNum 0 ∧
      parseDocFieldValue s = vNum 0) ∧
    buildRTDBQuery { whereS := some "age,==," } =
      .ok { orderByCalls := ["age"], bound := some (Bound.equalTo (vNum 0)),
            limitToFirst := none } := by
  refine ⟨fun s h => ?_, rfl⟩
  have hTrue : s ≠ "true" := by intro e; rw [e] at h; exact absurd h (by decide)
  have hFalse : s ≠ "false" := by intro e; rw [e] at h; exact absurd h (by decide)
  have hNull : s ≠ "null" := by intro e; rw [e] at h; exact absurd h (by decide)
  have hNum : jsToNumber s = some 0 := by
    unfold jsToNumber
    rw [h]
  refine ⟨?_, ?_, ?_⟩
  · unfold parseRTDBValue
    rw [if_neg hTrue, if_neg hFalse, if_neg hNull, hNum]
  · unfold parseCollectionValue
    rw [h]
    rfl
  · unfold parseDocFieldValue
    rw [h]
    rfl

/-- C10 (witness): the coercion theorem evaluated at the blank value
string `" "`. -/
theorem C10_witness :
    parseRTDBValue " " = vNum 0 ∧ parseCollectionValue " " = vNum 0 ∧
    parseDocFieldValue " " = vNum 0 :=
  C10_empty_value_coercion.1 " " (by decide)

/-- C1 (counterexample): three records with `a = 1, 2, 3`, descending
order on `a` and `limit = 2`.  The claim requires the final payload to
be the first two of the fully post-sorted set, keys `k3, k2`; the code
pushes `limitToFirst(2)` native before the descending post-sort, so the
backend delivers the two smallest records and the final payload is
`k2, k1`. -/
theorem C1_counterexample :
    finalKeys (queryRealtimeDatabase
      (vObj [("k1", vObj [("a", vNum 1)]), ("k2", vObj [("a", vNum 2)]),
             ("k3", vObj [("a", vNum 3)])])
      { orderByS := some "a,desc", limitS := some "2" }) = ["k2", "k1"] ∧
    ¬ (finalKeys (queryRealtimeDatabase
      (vObj [("k1", vObj [("a", vNum 1)]), ("k2", vObj [("a", vNum 2)]),
             ("k3", vObj [("a", vNum 3)])])
      { orderByS := some "a,desc", limitS := some "2" }) = ["k3", "k2"]) :=
  ⟨by decide, by decide⟩

/-- C1 (amended): a truthy, valid limit option is always pushed native
as `limitToFirst` before the backend call — also when a strict
inequality post-filter or a descending post-sort remains — and no limit
is re-applied after post-processing, so the final payload is the
post-processing of the first `n` native records and may contain fewer
than `n` records: with records `a = 5, 5, 7`, `where a > 5` and
`limit 2` the delivered count is `0` although one matching record
exists. -/
theorem C1_limit_amended :
    (∀ (o : QueryOptions) (q : RTDBQuery) (s : String) (n : Int),
      buildRTDBQuery o = .ok q → o.limitS = some s → s ≠ "" →
      jsParseInt s = some n → 0 < n → q.limitToFirst = some n.toNat) ∧
    totalCountOf (queryRealtimeDatabase
      (vObj [("k1", vObj [("a", vNum 5)]), ("k2", vObj [("a", vNum 5)]),
             ("k3", vObj [("a", vNum 7)])])
      { whereS := some "a,>,5", limitS := some "2" }) = some 0 := by
  refine ⟨fun o q s n hb hs hne hp hpos => ?_, by decide⟩
  unfold buildRTDBQuery at hb
  cases h1 : applyOrderBy o.orderByS {} with
  | error e => rw [h1] at hb; simp at hb
  | ok q1 =>
    rw [h1] at hb
    simp only [] at hb
    cases h2 : applyWhere o.whereS q1 with
    | error e => rw [h2] at hb; simp at hb
    | ok q2 =>
      rw [h2] at hb
      simp only [] at hb
      rw [hs] at hb
      simp [applyLimit, hne, hp, show ¬ n ≤ 0 by omega] at hb
      subst hb
      rfl

/-- C1 (witness): the amended theorem evaluated at `where a < 5`,
`limit 2`: the built query carries the native `limitToFirst 2`. -/
theorem C1_witness :
    RTDBQuery.limitToFirst
      { orderByCalls := ["a"], bound := some (Bound.endAt (vNum 5)),
        limitToFirst := some 2 } = some 2 :=
  C1_limit_amended.1 { whereS := some "a,<,5", limitS := some "2" }
    { orderByCalls := ["a"], bound := some (Bound.endAt (vNum 5)), limitToFirst := some 2 }
    "2" 2 rfl rfl (by decide) (by decide) (by decide)

/-- C2 (counterexample): with `where` on field `a` (equality) and
ascending `order` on field `b`, the real program does not succeed at
all: the order clause calls `orderByChild("b")`, and the where clause's
own `orderByChild("a")` is then rejected by the Firebase SDK with
"You can't combine multiple orderBy calls", so the invocation fails
before any backend call — no filter is pushed and no payload is
delivered, contradicting "the execution succeeds ... and the
combination does not fail". -/
theorem C2_counterexample :
    buildRTDBQuery { whereS := some "a,==,1", orderByS := some "b,asc" } =
      .error .errMultipleOrderBy ∧
    queryRealtimeDatabase (vObj [("k1", vObj [("a", vNum 1), ("b", vNum 2)])])
      { whereS := some "a,==,1", orderByS := some "b,asc" } =
      .error .errMultipleOrderBy ∧
    (queryRealtimeDatabase (vObj [("k1", vObj [("a", vNum 1), ("b", vNum 2)])])
      { whereS := some "a,==,1", orderByS := some "b,asc" }).isOk = false :=
  ⟨rfl, rfl, rfl⟩

/-- C2 (amended): when the where clause targets field `A` with a
supported operator and the order clause targets field `B` (either
direction), the combination fails instead of succeeding: the order
clause pushes `orderByChild(B)` native, and the where clause's second
`orderByChild(A)` call is rejected client-side by the SDK
("You can't combine multiple orderBy calls"), so the query aborts
before any backend call — the filter is never pushed and no ordering,
native or client-side, is delivered. -/
theorem C2_crossfield_amended :
    ∀ (wS oS A opS vS B d : String),
      jsSplit ',' wS = [A, opS, vS] → A ≠ "" →
      (opS = "==" ∨ opS = "=" ∨ opS = ">=" ∨ opS = "<=" ∨ opS = ">" ∨ opS = "<") →
      jsSplit ',' oS = [B, d] → B ≠ "" →
      (jsToLower d = "asc" ∨ jsToLower d = "desc") →
      applyOrderBy (some oS) {} =
        .ok { orderByCalls := [B], bound := none, limitToFirst := none } ∧
      buildRTDBQuery { whereS := some wS, orderByS := some oS } =
        .error .errMultipleOrderBy ∧
      (∀ db : Value,
        queryRealtimeDatabase db { whereS := some wS, orderByS := some oS } =
          .error .errMultipleOrderBy) := by
  intro wS oS A opS vS B d hw hA hop ho hB hd
  have hwne : wS ≠ "" := ne_empty_of_jsSplit2 hw
  have hone : oS ≠ "" := ne_empty_of_jsSplit2 ho
  have h1 : applyOrderBy (some oS) {} =
      .ok { orderByCalls := [B], bound := none, limitToFirst := none } := by
    rcases hd with hd | hd <;>
      simp [applyOrderBy, hone, ho, segFalsy, hB, hd]
  have h2 : applyWhere (some wS) { orderByCalls := [B], bound := none, limitToFirst := none } =
      .error .errMultipleOrderBy := by
    rcases hop with rfl | rfl | rfl | rfl | rfl | rfl <;>
      simp [applyWhere, addBound, hwne, hw, segFalsy, hA]
  have hbuild : buildRTDBQuery { whereS := some wS, orderByS := some oS } =
      .error .errMultipleOrderBy := by
    unfold buildRTDBQuery
    simp only [h1, h2]
  refine ⟨h1, hbuild, fun db => ?_⟩
  unfold queryRealtimeDatabase
  rw [hbuild]

/-- C2 (witness): the amended theorem evaluated at
`where = "a,==,1"`, `orderBy = "b,asc"` and an empty database value. -/
theorem C2_witness :
    applyOrderBy (some "b,asc") {} =
      .ok { orderByCalls := ["b"], bound := none, limitToFirst := none } ∧
    queryRealtimeDatabase (vObj []) { whereS := some "a,==,1", orderByS := some "b,asc" } =
      .error .errMultipleOrderBy :=
  have h := C2_crossfield_amended "a,==,1" "b,asc" "a" "==" "1" "b" "asc"
    (by decide) (by decide) (Or.inl rfl) (by decide) (by decide) (Or.inl (by decide))
  ⟨h.1, h.2.2 (vObj [])⟩

/-- C3 (counterexample): an ascending order clause does not trigger any
client-side sort: the payload keeps the backend delivery order `k1, k2`
(field values 2 then 1) instead of the ascending client-side order
`k2, k1` the claim requires the post-processor to establish. -/
theorem C3_counterexample :
    (jsEntries (postProcessRTDB { orderByS := some "a,asc" }
      (vObj [("k1", vObj [("a", vNum 2)]), ("k2", vObj [("a", vNum 1)])]))).map Prod.fst =
      ["k1", "k2"] ∧
    ¬ ((jsEntries (postProcessRTDB { orderByS := some "a,asc" }
      (vObj [("k1", vObj [("a", vNum 2)]), ("k2", vObj [("a", vNum 1)])]))).map Prod.fst =
      ["k2", "k1"]) :=
  ⟨by decide, by decide⟩

/-- C3 (amended): only a descending order clause triggers the
client-side post-sort; an ascending order clause leaves the raw backend
payload untouched, so ascending delivery order is exactly the backend's
native order. -/
theorem C3_order_amended :
    (∀ (oS f d : String) (raw : Value),
      jsSplit ',' oS = [f, d] → jsToLower d = "asc" →
      postProcessRTDB { orderByS := some oS } raw = raw) ∧
    (∀ (oS f d : String) (raw : Value),
      jsSplit ',' oS = [f, d] → jsToLower d = "desc" →
      postProcessRTDB { orderByS := some oS } raw =
        vObj (List.insertionSort (fun x y => rtdbDescLe f x y = true) (jsEntries raw))) := by
  refine ⟨fun oS f d raw ho hd => ?_, fun oS f d raw ho hd => ?_⟩
  · have hone : oS ≠ "" := ne_empty_of_jsSplit2 ho
    simp [postProcessRTDB, hone, ho, hd, show ¬ (("asc" : String) = "desc") from by decide]
  · have hone : oS ≠ "" := ne_empty_of_jsSplit2 ho
    simp [postProcessRTDB, hone, ho, hd]

/-- C3 (witness): the amended theorem evaluated at `orderBy "a,asc"`
and a two-record payload. -/
theorem C3_witness :
    postProcessRTDB { orderByS := some "a,asc" }
      (vObj [("k1", vObj [("a", vNum 2)]), ("k2", vObj [("a", vNum 1)])]) =
      vObj [("k1", vObj [("a", vNum 2)]), ("k2", vObj [("a", vNum 1)])] :=
  C3_order_amended.1 "a,asc" "a" "asc"
    (vObj [("k1", vObj [("a", vNum 2)]), ("k2", vObj [("a", vNum 1)])])
    (by decide) (by decide)

/-- Relational `<` on two numeric values is the rational comparison. -/
theorem jsLtOO_num (x y : ℚ) :
    jsLtOO (some (vNum x)) (some (vNum y)) = decide (x < y) := rfl

/-- Relational `>` on two numeric values is the flipped rational
comparison. -/
theorem jsGtOO_num (x y : ℚ) :
    jsGtOO (some (vNum x)) (some (vNum y)) = decide (y < x) := rfl

/-- The RTDB server-side order on two numeric child values is the
rational order. -/
theorem rtdbLeV_num (x y : ℚ) :
    rtdbLeV (some (vNum x)) (some (vNum y)) = decide (x ≤ y) := by
  simp [rtdbLeV, rtdbRank]

/-- Reading the indexed property of an object record. -/
theorem jsIndex_obj (f : String) (fs : List (String × Value)) :
    jsIndex (vObj fs) f = objGet fs f := rfl

/-- The where handler on a `<` clause over a not-yet-ordered query:
inclusive `endAt` pushed native. -/
theorem applyWhere_lt (s f vS : String) (q : RTDBQuery)
    (h : jsSplit ',' s = [f, "<", vS]) (hf : f ≠ "") (hq : q.orderByCalls = []) :
    applyWhere (some s) q =
      .ok { q with
            orderByCalls := q.orderByCalls ++ [f],
            bound := some (.endAt (parseRTDBValue vS)) } := by
  have hs : s ≠ "" := ne_empty_of_jsSplit2 h
  simp [applyWhere, addBound, hs, h, segFalsy, hf, hq]

/-- The where handler on a `>` clause over a not-yet-ordered query:
inclusive `startAt` pushed native. -/
theorem applyWhere_gt (s f vS : String) (q : RTDBQuery)
    (h : jsSplit ',' s = [f, ">", vS]) (hf : f ≠ "") (hq : q.orderByCalls = []) :
    applyWhere (some s) q =
      .ok { q with
            orderByCalls := q.orderByCalls ++ [f],
            bound := some (.startAt (parseRTDBValue vS)) } := by
  have hs : s ≠ "" := ne_empty_of_jsSplit2 h
  simp [applyWhere, addBound, hs, h, segFalsy, hf, hq]

/-- The modelled backend on a single `orderByChild` with an inclusive
upper bound and no native limit. -/
theorem execRTDB_endAt (f : String) (v : Value) (l : List (String × Value)) :
    execRTDB { orderByCalls := [f], bound := some (.endAt v), limitToFirst := none }
      (vObj l) =
      if ((List.insertionSort (fun x y => rtdbNodeLe f x y = true) l).filter
          (fun p => rtdbLeV (childVal f p) (some v))).isEmpty then vNull
      else vObj ((List.insertionSort (fun x y => rtdbNodeLe f x y = true) l).filter
          (fun p => rtdbLeV (childVal f p) (some v))) := rfl

/-- The modelled backend on a single `orderByChild` with an inclusive
lower bound and no native limit. -/
theorem execRTDB_startAt (f : String) (v : Value) (l : List (String × Value)) :
    execRTDB { orderByCalls := [f], bound := some (.startAt v), limitToFirst := none }
      (vObj l) =
      if ((List.insertionSort (fun x y => rtdbNodeLe f x y = true) l).filter
          (fun p => rtdbLeV (some v) (childVal f p))).isEmpty then vNull
      else vObj ((List.insertionSort (fun x y => rtdbNodeLe f x y = true) l).filter
          (fun p => rtdbLeV (some v) (childVal f p))) := rfl

/-- The post-processor on a `<` clause keeps exactly the entries whose
field value is relationally below the coerced clause value. -/
theorem postProcessRTDB_lt (wS f vS : String) (entries : List (String × Value))
    (hw : jsSplit ',' wS = [f, "<", vS]) :
    postProcessRTDB { whereS := some wS } (vObj entries) =
      vObj (entries.filter (fun p => jsLtOO (jsIndex p.2 f) (some (parseRTDBValue vS)))) := by
  have hs : wS ≠ "" := ne_empty_of_jsSplit2 hw
  simp [postProcessRTDB, hs, hw, jsEntries]

/-- The post-processor on a `>` clause keeps exactly the entries whose
field value is relationally above the coerced clause value. -/
theorem postProcessRTDB_gt (wS f vS : String) (entries : List (String × Value))
    (hw : jsSplit ',' wS = [f, ">", vS]) :
    postProcessRTDB { whereS := some wS } (vObj entries) =
      vObj (entries.filter (fun p => jsGtOO (jsIndex p.2 f) (some (parseRTDBValue vS)))) := by
  have hs : wS ≠ "" := ne_empty_of_jsSplit2 hw
  simp [postProcessRTDB, hs, hw, jsEntries]

/-- The RTDB pipeline with a successfully built native query. -/
theorem queryRealtimeDatabase_ok (db : Value) (o : QueryOptions) (q : RTDBQuery)
    (h : buildRTDBQuery o = .ok q) :
    queryRealtimeDatabase db o =
      if jsFalsy (execRTDB q db) then .ok none
      else .ok (some { totalResults := jsKeysLen (postProcessRTDB o (execRTDB q db)),
                       results := postProcessRTDB o (execRTDB q db) }) := by
  unfold queryRealtimeDatabase
  rw [h]

/-- Payload entries of a run that produced no envelope. -/
theorem finalEntries_ok_none : finalEntries (.ok none) = [] := rfl

/-- Payload entries of a run that produced an envelope. -/
theorem finalEntries_ok_some (env : RTDBEnvelope) :
    finalEntries (.ok (some env)) = jsEntries env.results := rfl

/-- Entries of an object value. -/
theorem jsEntries_obj (l : List (String × Value)) : jsEntries (vObj l) = l := rfl

/-- C4 (confirmed): for a strict-inequality where clause over numeric
record fields, the native call uses the corresponding inclusive bound
(`endAt` for `<`, `startAt` for `>`), and the post-filter removes
exactly the records whose field value equals the coerced bound (plus,
natively, those on the wrong side of it), so the delivered payload
contains precisely the records whose field is strictly below
(respectively above) the coerced value. -/
theorem C4_strict_inequality :
    (∀ (wS f vS : String) (vq : ℚ) (l : List (String × Value)),
      jsSplit ',' wS = [f, "<", vS] → f ≠ "" → parseRTDBValue vS = vNum vq →
      (∀ r ∈ l, ∃ fs q, r.2 = vObj fs ∧ objGet fs f = some (vNum q)) →
      buildRTDBQuery { whereS := some wS } =
        .ok { orderByCalls := [f], bound := some (Bound.endAt (vNum vq)),
              limitToFirst := none } ∧
      (∀ p, p ∈ finalEntries (queryRealtimeDatabase (vObj l) { whereS := some wS }) ↔
        (p ∈ l ∧ jsLtOO (jsIndex p.2 f) (some (vNum vq)) = true))) ∧
    (∀ (wS f vS : String) (vq : ℚ) (l : List (String × Value)),
      jsSplit ',' wS = [f, ">", vS] → f ≠ "" → parseRTDBValue vS = vNum vq →
      (∀ r ∈ l, ∃ fs q, r.2 = vObj fs ∧ objGet fs f = some (vNum q)) →
      buildRTDBQuery { whereS := some wS } =
        .ok { orderByCalls := [f], bound := some (Bound.startAt (vNum vq)),
              limitToFirst := none } ∧
      (∀ p, p ∈ finalEntries (queryRealtimeDatabase (vObj l) { whereS := some wS }) ↔
        (p ∈ l ∧ jsGtOO (jsIndex p.2 f) (some (vNum vq)) = true))) := by
  constructor
  · intro wS f vS vq l hw hf hv hrec
    have hb : buildRTDBQuery { whereS := some wS } =
        .ok { orderByCalls := [f], bound := some (Bound.endAt (vNum vq)),
              limitToFirst := none } := by
      simp [buildRTDBQuery, applyOrderBy, applyLimit, applyWhere_lt wS f vS {} hw hf rfl, hv]
    have hIdx : ∀ r ∈ l, ∃ q : ℚ,
        childVal f r = some (vNum q) ∧ jsIndex r.2 f = some (vNum q) := by
      intro r hr
      obtain ⟨fs, q, h2, h3⟩ := hrec r hr
      exact ⟨q, by simp [childVal, h2, h3], by rw [h2, jsIndex_obj, h3]⟩
    refine ⟨hb, fun p => ?_⟩
    rw [queryRealtimeDatabase_ok _ _ _ hb, execRTDB_endAt]
    generalize hbd : (List.insertionSort (fun x y => rtdbNodeLe f x y = true) l).filter
        (fun p => rtdbLeV (childVal f p) (some (vNum vq))) = bounded
    have hmemB : ∀ r, r ∈ bounded ↔
        (r ∈ l ∧ rtdbLeV (childVal f r) (some (vNum vq)) = true) := by
      intro r
      rw [← hbd, List.mem_filter, List.mem_insertionSort]
    cases hEmp : bounded.isEmpty with
    | true =>
      simp only [eq_self_iff_true, if_true, jsFalsy, finalEntries_ok_none]
      constructor
      · intro h; exact absurd h (List.not_mem_nil p)
      · rintro ⟨hpl, hpost⟩
        obtain ⟨q, hcv, hidx⟩ := hIdx p hpl
        rw [hidx, jsLtOO_num] at hpost
        have hnat : rtdbLeV (childVal f p) (some (vNum vq)) = true := by
          rw [hcv, rtdbLeV_num]
          exact decide_eq_true (le_of_lt (of_decide_eq_true hpost))
        have hpB : p ∈ bounded := (hmemB p).mpr ⟨hpl, hnat⟩
        rw [List.isEmpty_iff.mp hEmp] at hpB
        exact absurd hpB (List.not_mem_nil p)
    | false =>
      simp only [Bool.false_eq_true, if_false, jsFalsy, finalEntries_ok_some]
      rw [postProcessRTDB_lt wS f vS bounded hw, hv, jsEntries_obj]
      rw [List.mem_filter, hmemB p]
      constructor
      · rintro ⟨⟨hpl, _⟩, hpost⟩; exact ⟨hpl, hpost⟩
      · rintro ⟨hpl, hpost⟩
        obtain ⟨q, hcv, hidx⟩ := hIdx p hpl
        have hq : decide (q < vq) = true := by
          rw [hidx, jsLtOO_num] at hpost; exact hpost
        refine ⟨⟨hpl, ?_⟩, hpost⟩
        rw [hcv, rtdbLeV_num]
        exact decide_eq_true (le_of_lt (of_decide_eq_true hq))
  · intro wS f vS vq l hw hf hv hrec
    have hb : buildRTDBQuery { whereS := some wS } =
        .ok { orderByCalls := [f], bound := some (Bound.startAt (vNum vq)),
              limitToFirst := none } := by
      simp [buildRTDBQuery, applyOrderBy, applyLimit, applyWhere_gt wS f vS {} hw hf rfl, hv]
    have hIdx : ∀ r ∈ l, ∃ q : ℚ,
        childVal f r = some (vNum q) ∧ jsIndex r.2 f = some (vNum q) := by
      intro r hr
      obtain ⟨fs, q, h2, h3⟩ := hrec r hr
      exact ⟨q, by simp [childVal, h2, h3], by rw [h2, jsIndex_obj, h3]⟩
    refine ⟨hb, fun p => ?_⟩
    rw [queryRealtimeDatabase_ok _ _ _ hb, execRTDB_startAt]
    generalize hbd : (List.insertionSort (fun x y => rtdbNodeLe f x y = true) l).filter
        (fun p => rtdbLeV (some (vNum vq)) (childVal f p)) = bounded
    have hmemB : ∀ r, r ∈ bounded ↔
        (r ∈ l ∧ rtdbLeV (some (vNum vq)) (childVal f r) = true) := by
      intro r
      rw [← hbd, List.mem_filter, List.mem_insertionSort]
    cases hEmp : bounded.isEmpty with
    | true =>
      simp only [eq_self_iff_true, if_true, jsFalsy, finalEntries_ok_none]
      constructor
      · intro h; exact absurd h (List.not_mem_nil p)
      · rintro ⟨hpl, hpost⟩
        obtain ⟨q, hcv, hidx⟩ := hIdx p hpl
        rw [hidx, jsGtOO_num] at hpost
        have hnat : rtdbLeV (some (vNum vq)) (childVal f p) = true := by
          rw [hcv, rtdbLeV_num]
          exact decide_eq_true (le_of_lt (of_decide_eq_true hpost))
        have hpB : p ∈ bounded := (hmemB p).mpr ⟨hpl, hnat⟩
        rw [List.isEmpty_iff.mp hEmp] at hpB
        exact absurd hpB (List.not_mem_nil p)
    | false =>
      simp only [Bool.false_eq_true, if_false, jsFalsy, finalEntries_ok_some]
      rw [postProcessRTDB_gt wS f vS bounded hw, hv, jsEntries_obj]
      rw [List.mem_filter, hmemB p]
      constructor
      · rintro ⟨⟨hpl, _⟩, hpost⟩; exact ⟨hpl, hpost⟩
      · rintro ⟨hpl, hpost⟩
        obtain ⟨q, hcv, hidx⟩ := hIdx p hpl
        have hq : decide (vq < q) = true := by
          rw [hidx, jsGtOO_num] at hpost; exact hpost
        refine ⟨⟨hpl, ?_⟩, hpost⟩
        rw [hcv, rtdbLeV_num]
        exact decide_eq_true (le_of_lt (of_decide_eq_true hq))

/-- C4 (witness): the strict-inequality theorem evaluated at
`where price < 100` over three numeric records: `k1` (price 50) is
delivered. -/
theorem C4_witness :
    ("k1", vObj [("price", vNum 50)]) ∈ finalEntries (queryRealtimeDatabase
      (vObj [("k1", vObj [("price", vNum 50)]), ("k2", vObj [("price", vNum 100)]),
             ("k3", vObj [("price", vNum 150)])])
      { whereS := some "price,<,100" }) :=
  ((C4_strict_inequality.1 "price,<,100" "price" "100" 100
      [("k1", vObj [("price", vNum 50)]), ("k2", vObj [("price", vNum 100)]),
       ("k3", vObj [("price", vNum 150)])]
      (by decide) (by decide) rfl
      (by
        intro r hr
        simp only [List.mem_cons, List.not_mem_nil, or_false] at hr
        rcases hr with rfl | rfl | rfl
        · exact ⟨[("price", vNum 50)], 50, rfl, rfl⟩
        · exact ⟨[("price", vNum 100)], 100, rfl, rfl⟩
        · exact ⟨[("price", vNum 150)], 150, rfl, rfl⟩)).2
    ("k1", vObj [("price", vNum 50)])).mpr
    ⟨by simp, by decide⟩

/-- The document-field comparator orders a record with a resolvable
field before one whose field is unresolvable, in either direction. -/
theorem fsLe_res_unres (dir f : String) (a b : Value)
    (haObj : isObjLike a = true) (hbObj : isObjLike b = true)
    (haR : unresolvedOpt (getNestedFieldValue a f) = false)
    (hbU : unresolvedOpt (getNestedFieldValue b f) = true) :
    fsLe dir f a b = true := by
  simp [fsLe, fsCompare, haObj, hbObj, haR, hbU]

/-- The document-field comparator orders a record with an unresolvable
field strictly after one with a resolvable field, in either direction. -/
theorem fsLe_unres_res (dir f : String) (a b : Value)
    (haObj : isObjLike a = true) (hbObj : isObjLike b = true)
    (haU : unresolvedOpt (getNestedFieldValue a f) = true)
    (hbR : unresolvedOpt (getNestedFieldValue b f) = false) :
    fsLe dir f a b = false := by
  simp [fsLe, fsCompare, haObj, hbObj, haU, hbR]

/-- Two records with unresolvable fields tie in the document-field
comparator. -/
theorem fsLe_unres_unres (dir f : String) (a b : Value)
    (haObj : isObjLike a = true) (hbObj : isObjLike b = true)
    (haU : unresolvedOpt (getNestedFieldValue a f) = true)
    (hbU : unresolvedOpt (getNestedFieldValue b f) = true) :
    fsLe dir f a b = true := by
  simp [fsLe, fsCompare, haObj, hbObj, haU, hbU]

/-- Inserting a record with an unresolvable field into a block of
resolvable records followed by a block of unresolvable ones places it
at the head of the unresolvable block. -/
theorem orderedInsert_unres (dir f : String) (a : Value) (A B : List Value)
    (haObj : isObjLike a = true)
    (haU : unresolvedOpt (getNestedFieldValue a f) = true)
    (hA : ∀ x ∈ A, isObjLike x = true ∧ unresolvedOpt (getNestedFieldValue x f) = false)
    (hB : ∀ x ∈ B, isObjLike x = true ∧ unresolvedOpt (getNestedFieldValue x f) = true) :
    List.orderedInsert (fun x y => fsLe dir f x y = true) a (A ++ B) = A ++ a :: B := by
  induction A with
  | nil =>
    cases B with
    | nil => rfl
    | cons b B' =>
      obtain ⟨hbObj, hbU⟩ := hB b (List.mem_cons_self b B')
      simp only [List.nil_append, List.orderedInsert]
      rw [if_pos (fsLe_unres_unres dir f a b haObj hbObj haU hbU)]
  | cons x A' ih =>
    obtain ⟨hxObj, hxR⟩ := hA x (List.mem_cons_self x A')
    simp only [List.cons_append, List.orderedInsert, List.append_eq]
    rw [if_neg (by simp [fsLe_unres_res dir f a x haObj hxObj haU hxR]),
      ih (fun y hy => hA y (List.mem_cons_of_mem x hy))]

/-- Inserting a record with a resolvable field into a block of
resolvable records followed by a block of unresolvable ones keeps the
unresolvable block as the suffix. -/
theorem orderedInsert_res (dir f : String) (a : Value) (A B : List Value)
    (haObj : isObjLike a = true)
    (haR : unresolvedOpt (getNestedFieldValue a f) = false)
    (hA : ∀ x ∈ A, isObjLike x = true ∧ unresolvedOpt (getNestedFieldValue x f) = false)
    (hB : ∀ x ∈ B, isObjLike x = true ∧ unresolvedOpt (getNestedFieldValue x f) = true) :
    ∃ A', List.orderedInsert (fun x y => fsLe dir f x y = true) a (A ++ B) = A' ++ B ∧
      (∀ x ∈ A', isObjLike x = true ∧ unresolvedOpt (getNestedFieldValue x f) = false) := by
  induction A with
  | nil =>
    refine ⟨[a], ?_, ?_⟩
    · cases B with
      | nil => rfl
      | cons b B' =>
        obtain ⟨hbObj, hbU⟩ := hB b (List.mem_cons_self b B')
        simp only [List.nil_append, List.orderedInsert]
        rw [if_pos (fsLe_res_unres dir f a b haObj hbObj haR hbU)]
        rfl
    · intro x hx
      simp only [List.mem_singleton] at hx
      subst hx
      exact ⟨haObj, haR⟩
  | cons x A' ih =>
    obtain ⟨hxObj, hxR⟩ := hA x (List.mem_cons_self x A')
    by_cases hc : fsLe dir f a x = true
    · refine ⟨a :: x :: A', ?_, ?_⟩
      · simp only [List.cons_append, List.orderedInsert, List.append_eq]
        rw [if_pos hc]
      · intro y hy
        rcases List.mem_cons.mp hy with rfl | hy2
        · exact ⟨haObj, haR⟩
        · rcases List.mem_cons.mp hy2 with rfl | hy3
          · exact ⟨hxObj, hxR⟩
          · exact hA y (List.mem_cons_of_mem x hy3)
    · obtain ⟨A0, hEq0, hProps⟩ := ih (fun y hy => hA y (List.mem_cons_of_mem x hy))
      refine ⟨x :: A0, ?_, ?_⟩
      · simp only [List.cons_append, List.orderedInsert, List.append_eq]
        rw [if_neg hc, hEq0]
      · intro y hy
        rcases List.mem_cons.mp hy with rfl | hy2
        · exact ⟨hxObj, hxR⟩
        · exact hProps y hy2

/-- C7 (counterexample): the RTDB descending post-sort leaves the
record `k1`, whose sort field is missing, in front of the two records
with resolvable fields — its comparator returns 0 against every record,
so missing-field records keep their input position instead of sorting
after all resolvable records as the claim requires (which would be
`k2, k3, k1`). -/
theorem C7_counterexample :
    (jsEntries (postProcessRTDB { orderByS := some "a,desc" }
      (vObj [("k1", vObj []), ("k2", vObj [("a", vNum 2)]),
             ("k3", vObj [("a", vNum 1)])]))).map Prod.fst = ["k1", "k2", "k3"] ∧
    ¬ ((jsEntries (postProcessRTDB { orderByS := some "a,desc" }
      (vObj [("k1", vObj []), ("k2", vObj [("a", vNum 2)]),
             ("k3", vObj [("a", vNum 1)])]))).map Prod.fst = ["k2", "k3", "k1"]) :=
  ⟨by decide, by decide⟩

/-- C7 (amended): the Firestore document-field post-sort, over object
records, is stable, honours the requested direction, and places every
record with an unresolvable (missing or null) field after all records
with a resolvable field — the sorted output is a block of resolvable
records followed by a block of unresolvable ones, and the spec's
stability test holds in both directions; the RTDB descending post-sort,
by contrast, compares records with unresolvable fields as equal to
every record, so they retain their input positions instead of moving to
the end. -/
theorem C7_postsort_amended :
    (∀ (dir f : String) (l : List Value), (∀ v ∈ l, isObjLike v = true) →
      ∃ A B, fsSortArray dir f l = A ++ B ∧
        (∀ x ∈ A, unresolvedOpt (getNestedFieldValue x f) = false) ∧
        (∀ x ∈ B, unresolvedOpt (getNestedFieldValue x f) = true)) ∧
    fsSortArray "asc" "a" [vObj [("a", vNum 2), ("t", vStr "x")],
      vObj [("a", vNum 1), ("t", vStr "y")], vObj [("t", vStr "z")],
      vObj [("a", vNum 1), ("t", vStr "w")]] =
      [vObj [("a", vNum 1), ("t", vStr "y")], vObj [("a", vNum 1), ("t", vStr "w")],
       vObj [("a", vNum 2), ("t", vStr "x")], vObj [("t", vStr "z")]] ∧
    fsSortArray "desc" "a" [vObj [("a", vNum 2), ("t", vStr "x")],
      vObj [("a", vNum 1), ("t", vStr "y")], vObj [("t", vStr "z")],
      vObj [("a", vNum 1), ("t", vStr "w")]] =
      [vObj [("a", vNum 2), ("t", vStr "x")], vObj [("a", vNum 1), ("t", vStr "y")],
       vObj [("a", vNum 1), ("t", vStr "w")], vObj [("t", vStr "z")]] := by
  refine ⟨?_, rfl, rfl⟩
  intro dir f l hObj
  unfold fsSortArray
  induction l with
  | nil => exact ⟨[], [], rfl, by simp, by simp⟩
  | cons a l ih =>
    have haObj := hObj a (List.mem_cons_self a l)
    obtain ⟨A, B, hEq, hA, hB⟩ := ih (fun v hv => hObj v (List.mem_cons_of_mem a hv))
    have hmemsort : ∀ x, x ∈ A ++ B → x ∈ l := by
      intro x hx
      rw [← hEq] at hx
      exact (List.mem_insertionSort _).mp hx
    have hAfull : ∀ x ∈ A,
        isObjLike x = true ∧ unresolvedOpt (getNestedFieldValue x f) = false :=
      fun x hx =>
        ⟨hObj x (List.mem_cons_of_mem a (hmemsort x (List.mem_append_left B hx))), hA x hx⟩
    have hBfull : ∀ x ∈ B,
        isObjLike x = true ∧ unresolvedOpt (getNestedFieldValue x f) = true :=
      fun x hx =>
        ⟨hObj x (List.mem_cons_of_mem a (hmemsort x (List.mem_append_right A hx))), hB x hx⟩
    simp only [List.insertionSort]
    rw [hEq]
    cases hres : unresolvedOpt (getNestedFieldValue a f) with
    | true =>
      rw [orderedInsert_unres dir f a A B haObj hres hAfull hBfull]
      refine ⟨A, a :: B, rfl, hA, ?_⟩
      intro x hx
      rcases List.mem_cons.mp hx with rfl | hx2
      · exact hres
      · exact hB x hx2
    | false =>
      obtain ⟨A0, hEq0, hProps⟩ := orderedInsert_res dir f a A B haObj hres hAfull hBfull
      rw [hEq0]
      exact ⟨A0, B, rfl, fun x hx => (hProps x hx).2, hB⟩

/-- C7 (witness): the amended theorem's block-split property evaluated
on a concrete three-record array with one missing field, descending. -/
theorem C7_witness :
    ∃ A B, fsSortArray "desc" "a" [vObj [("a", vNum 1)], vObj [], vObj [("a", vNum 2)]] =
      A ++ B ∧
      (∀ x ∈ A, unresolvedOpt (getNestedFieldValue x "a") = false) ∧
      (∀ x ∈ B, unresolvedOpt (getNestedFieldValue x "a") = true) :=
  C7_postsort_amended.1 "desc" "a" [vObj [("a", vNum 1)], vObj [], vObj [("a", vNum 2)]]
    (by intro v hv; simp only [List.mem_cons, List.not_mem_nil, or_false] at hv
        rcases hv with rfl | rfl | rfl <;> rfl)
